import Mathlib

/-!
go-grpc-kit: duplex server and dial-option resolution.

A shallow embedding of `pkg/duplex/server.go` and `pkg/options/options.go`.

Go strings are Lean strings, Go `int` values are integers, and a panic is the
`Except.error` branch of a result. Of the other packages, `h2c.NewHandler`,
`grpc.NewServer` and `runtime.NewServeMux` are embedded as far as the two
packages depend on them; the targets of forwarding calls and the handlers of
the HTTP mux are recorded as data.
-/

namespace GrpcKit

/-! ## Go library functions used by the two packages -/

/-- Scan of `strings.Contains(s, substr)` over the characters of `s`: is `sub`
a prefix of some suffix of the argument. -/
def containsChars : List Char → List Char → Bool
  | [], sub => sub.isPrefixOf []
  | c :: s, sub => sub.isPrefixOf (c :: s) || containsChars s sub

/-- Go `strings.Contains(s, substr)`: reports whether `substr` is within `s`. -/
def stringsContains (s substr : String) : Bool :=
  containsChars s.data substr.data

/-- Go `%d` verb of `fmt.Sprintf` for an integer: decimal digits, with a
leading minus sign for a negative number. -/
def fmtD (i : Int) : String :=
  if i < 0 then "-" ++ Nat.repr i.natAbs else Nat.repr i.toNat

/-! ## pkg/duplex/server.go -/

namespace duplex

/-- Go `http.Header`: the keys of the map, canonical header names, each with
its values. -/
abbrev Header := List (String × List String)

/-- Go `http.Header.Get`: the first value associated with the key, or the
empty string when there is none. -/
def Header.Get (h : Header) (key : String) : String :=
  match h.lookup key with
  | some (v :: _) => v
  | _ => ""

/-- The fields of `http.Request` that a handler can look at; `Path` is
`URL.Path`. -/
structure Request where
  Method : String
  Path : String
  Proto : String
  ProtoMajor : Int
  ProtoMinor : Int
  Header : Header
  Body : List Nat
  deriving DecidableEq

/-- A forwarding call made by the handler: which target got `ServeHTTP(w, r)`,
with the response writer and the request it was given. -/
inductive Call (W : Type) where
  | grpcServerServeHTTP (w : W) (r : Request)
  | httpHandlerServeHTTP (w : W) (r : Request)
  deriving DecidableEq

/-- Is the call one to the gRPC server. -/
def Call.isGrpc {W : Type} : Call W → Bool
  | .grpcServerServeHTTP _ _ => true
  | .httpHandlerServeHTTP _ _ => false

/-- Is the call one to the HTTP handler. -/
def Call.isHttp {W : Type} : Call W → Bool
  | .grpcServerServeHTTP _ _ => false
  | .httpHandlerServeHTTP _ _ => true

/-- The request a forwarding call was given. -/
def Call.request {W : Type} : Call W → Request
  | .grpcServerServeHTTP _ r => r
  | .httpHandlerServeHTTP _ r => r

/-- The handler function inside `grpcHandlerFunc`, the argument of
`h2c.NewHandler`: the list of `ServeHTTP` calls it makes for a request. -/
def grpcHandlerFunc.handlerFunc {W : Type} (w : W) (r : Request) : List (Call W) :=
  if r.ProtoMajor = 2 ∧ stringsContains (r.Header.Get "Content-Type") "application/grpc" = true then
    [Call.grpcServerServeHTTP w r]
  else
    [Call.httpHandlerServeHTTP w r]

/-- What package `h2c` (golang.org/x/net/http2/h2c) takes from outside this
repository: its test `isH2CUpgrade` on the headers, and, for a connection it
takes over (by prior knowledge, or by upgrade), the requests that the HTTP/2
server then reads from that connection, each with its response writer; there
are none when the connection cannot be taken over. -/
structure h2c.Env (W : Type) where
  isH2CUpgrade : Header → Bool
  priorKnowledgeConn : W → Request → List (W × Request)
  upgradeConn : W → Request → List (W × Request)

/-- The test of `h2c` for the client preface of HTTP/2 with prior knowledge:
method "PRI", no header at all, path "*" and protocol "HTTP/2.0". -/
def h2c.isPriorKnowledge (r : Request) : Prop :=
  r.Method = "PRI" ∧ r.Header.length = 0 ∧ r.Path = "*" ∧ r.Proto = "HTTP/2.0"

instance (r : Request) : Decidable (h2c.isPriorKnowledge r) := by
  unfold h2c.isPriorKnowledge
  infer_instance

/-- Go `http2.Server.ServeConn` with a handler: the handler is called for each
request read from the connection. -/
def http2.ServeConn {W : Type} (handler : W → Request → List (Call W)) :
    List (W × Request) → List (Call W)
  | [] => []
  | (w, r) :: rest => handler w r ++ http2.ServeConn handler rest

/-- The method `ServeHTTP` of the handler `h2c.NewHandler(handler, _)`: for the
prior-knowledge preface and for an h2c upgrade request it takes the connection
over and serves HTTP/2 on it with the handler; any other request goes to the
handler. -/
def h2c.NewHandler {W : Type} (env : h2c.Env W) (handler : W → Request → List (Call W))
    (w : W) (r : Request) : List (Call W) :=
  if h2c.isPriorKnowledge r then
    http2.ServeConn handler (env.priorKnowledgeConn w r)
  else if env.isH2CUpgrade r.Header then
    http2.ServeConn handler (env.upgradeConn w r)
  else
    handler w r

/-- The handler returned by `grpcHandlerFunc`: the forwarding calls made while
it serves a request. -/
def grpcHandlerFunc {W : Type} (env : h2c.Env W) (w : W) (r : Request) : List (Call W) :=
  h2c.NewHandler env grpcHandlerFunc.handlerFunc w r

/-- A `grpc.ServerOption`: an interface value whose method `apply` changes the
server options being built, or panics. -/
structure grpc.ServerOption (SO : Type) where
  apply : SO → Except String SO

/-- A `grpc.Server`: the options `grpc.NewServer` was called with, and the
server options they produced. -/
structure grpc.Server (SO : Type) where
  opt : List (grpc.ServerOption SO)
  opts : SO

/-- The loop of `grpc.NewServer` that applies the options in order. -/
def grpc.applyAll {SO : Type} : List (grpc.ServerOption SO) → SO → Except String SO
  | [], opts => .ok opts
  | o :: rest, opts =>
    match o.apply opts with
    | .error e => .error e
    | .ok opts1 => grpc.applyAll rest opts1

/-- Go `grpc.NewServer(opt...)`, from the default server options. -/
def grpc.NewServer {SO : Type} (defaults : SO) (opt : List (grpc.ServerOption SO)) :
    Except String (grpc.Server SO) :=
  match grpc.applyAll opt defaults with
  | .error e => .error e
  | .ok opts => .ok { opt := opt, opts := opts }

/-- A `runtime.ServeMuxOption`, a value of a func type: the nil func, or a
function that changes the mux being built, or panics. -/
inductive runtime.ServeMuxOption (MX : Type) where
  | nil
  | fn (f : MX → Except String MX)

/-- A `runtime.ServeMux`: the options `runtime.NewServeMux` was called with, and
the mux they produced. -/
structure runtime.ServeMux (MX : Type) where
  opts : List (runtime.ServeMuxOption MX)
  mux : MX

/-- The loop of `runtime.NewServeMux` that calls the options in order; the call
of a nil func panics. -/
def runtime.applyAll {MX : Type} : List (runtime.ServeMuxOption MX) → MX → Except String MX
  | [], mux => .ok mux
  | .nil :: _, _ => .error "runtime error: invalid memory address or nil pointer dereference"
  | .fn f :: rest, mux =>
    match f mux with
    | .error e => .error e
    | .ok mux1 => runtime.applyAll rest mux1

/-- Go `runtime.NewServeMux(opts...)`, from the fresh mux. -/
def runtime.NewServeMux {MX : Type} (fresh : MX) (opts : List (runtime.ServeMuxOption MX)) :
    Except String (runtime.ServeMux MX) :=
  match runtime.applyAll opts fresh with
  | .error e => .error e
  | .ok mux => .ok { opts := opts, mux := mux }

/-- An element of the `opts ...interface{}` list of `New`, by its dynamic type:
a `grpc.ServerOption`, a `runtime.ServeMuxOption`, or a value of any other
type (the nil interface included), of which the type name is kept. -/
inductive Opt (S M : Type) where
  | serverOption (o : S)
  | serveMuxOption (o : M)
  | other (typeName : String)

/-- The gRPC dial options this package builds. -/
inductive DialOption where
  | WithTransportCredentialsInsecure
  deriving DecidableEq, Repr

/-- The struct `Duplex`. -/
structure Duplex (SO MX : Type) where
  Server : grpc.Server SO
  MUX : runtime.ServeMux MX
  Loopback : String
  Port : Int
  DialOptions : List DialOption

/-- The type switch loop of `New`: splits the options into the two typed
lists, appending in order; an element of another type panics. -/
def splitOpts {S M : Type} : List (Opt S M) → List S → List M → Except String (List S × List M)
  | [], gOpts, mOpts => .ok (gOpts, mOpts)
  | .serverOption o :: rest, gOpts, mOpts => splitOpts rest (gOpts ++ [o]) mOpts
  | .serveMuxOption o :: rest, gOpts, mOpts => splitOpts rest gOpts (mOpts ++ [o])
  | .other t :: _, _, _ => .error ("unknown type: " ++ t)

/-- The function `New(port, opts...)`, given the default server options of
`grpc` and the fresh mux of `runtime`. The fields of the struct are evaluated
in order: the server, then the mux. -/
def New {SO MX : Type} (defaults : SO) (fresh : MX) (port : Int)
    (opts : List (Opt (grpc.ServerOption SO) (runtime.ServeMuxOption MX))) :
    Except String (Duplex SO MX) :=
  match splitOpts opts [] [] with
  | .error e => .error e
  | .ok (gOpts, mOpts) =>
    match grpc.NewServer defaults gOpts with
    | .error e => .error e
    | .ok server =>
      match runtime.NewServeMux fresh mOpts with
      | .error e => .error e
      | .ok mux =>
        .ok { Server := server
              MUX := mux
              Loopback := "localhost:" ++ fmtD port
              Port := port
              DialOptions := [DialOption.WithTransportCredentialsInsecure] }

/-- The handlers registered on the observability mux. -/
inductive MetricsHandler where
  | promhttpHandler
  | pprofIndex
  | pprofCmdline
  | pprofProfile
  | pprofSymbol
  | pprofTrace
  | pprofHandler (name : String)
  deriving DecidableEq, Repr

/-- Go `http.ServeMux` as the list of its registrations, oldest first. -/
abbrev ServeMux := List (String × MetricsHandler)

/-- Go `ServeMux.Handle` and `ServeMux.HandleFunc`: add a registration. -/
def ServeMux.Handle (mux : ServeMux) (pattern : String) (h : MetricsHandler) : ServeMux :=
  mux ++ [(pattern, h)]

/-- What the goroutine of `RegisterListenAndServeMetrics` sets up: the mux it
builds and the address it listens on. -/
structure MetricsEndpoint where
  mux : ServeMux
  addr : String

/-- The body of the goroutine started by `RegisterListenAndServeMetrics`. -/
def RegisterListenAndServeMetrics (port : Int) (enablePprof : Bool) : MetricsEndpoint :=
  let mux : ServeMux := []
  let mux := mux.Handle "/metrics" .promhttpHandler
  let mux :=
    if enablePprof then
      let mux := mux.Handle "/debug/pprof/" .pprofIndex
      let mux := mux.Handle "/debug/pprof/cmdline" .pprofCmdline
      let mux := mux.Handle "/debug/pprof/profile" .pprofProfile
      let mux := mux.Handle "/debug/pprof/symbol" .pprofSymbol
      let mux := mux.Handle "/debug/pprof/trace" .pprofTrace
      let mux := mux.Handle "/debug/pprof/allocs" (.pprofHandler "allocs")
      let mux := mux.Handle "/debug/pprof/block" (.pprofHandler "block")
      let mux := mux.Handle "/debug/pprof/goroutine" (.pprofHandler "goroutine")
      let mux := mux.Handle "/debug/pprof/heap" (.pprofHandler "heap")
      let mux := mux.Handle "/debug/pprof/mutex" (.pprofHandler "mutex")
      mux.Handle "/debug/pprof/threadcreate" (.pprofHandler "threadcreate")
    else mux
  { mux := mux, addr := ":" ++ fmtD port }

/-- The patterns registered on a mux. -/
def ServeMux.patterns (mux : ServeMux) : List String :=
  mux.map Prod.fst

/-- The routing condition in the words of the specification: protocol major
version 2, and "application/grpc" occurs within the Content-Type header. -/
def isGrpcRequest (r : Request) : Prop :=
  r.ProtoMajor = 2 ∧ "application/grpc".data <:+: (r.Header.Get "Content-Type").data

/-- The option as a `grpc.ServerOption`, when its dynamic type is one. -/
def Opt.asServerOption {S M : Type} : Opt S M → Option S
  | .serverOption o => some o
  | _ => none

/-- The option as a `runtime.ServeMuxOption`, when its dynamic type is one. -/
def Opt.asServeMuxOption {S M : Type} : Opt S M → Option M
  | .serveMuxOption o => some o
  | _ => none

/-- Is the option neither a `grpc.ServerOption` nor a `runtime.ServeMuxOption`. -/
def Opt.isUnknown {S M : Type} : Opt S M → Bool
  | .other _ => true
  | _ => false

end duplex

/-! ## pkg/options/options.go -/

namespace options

/-- The struct `env`: the three histogram switches read from the environment
at start-up. -/
structure Env where
  EnableClientHandlingTimeHistogram : Bool
  EnableClientStreamReceiveTimeHistogram : Bool
  EnableClientStreamSendTimeHistogram : Bool

/-- A value of the interface type `DialableListener`: the nil interface, or a
concrete listener. -/
inductive DialableListener (L : Type) where
  | nil
  | impl (l : L)
  deriving DecidableEq, Repr

/-- Go `sync.Map` with string keys, holding listener values: the entry of a
key, if it has one. -/
abbrev SyncMap (L : Type) := String → Option (DialableListener L)

/-- Go `sync.Map.Load`: the stored value and true, or nil and false. -/
def SyncMap.Load {L : Type} (m : SyncMap L) (key : String) : DialableListener L × Bool :=
  match m key with
  | some v => (v, true)
  | none => (.nil, false)

/-- Go `sync.Map.LoadOrStore`: the existing value and true when the key is
present; otherwise the value is stored, and returned with false. -/
def SyncMap.LoadOrStore {L : Type} (m : SyncMap L) (key : String) (value : DialableListener L) :
    SyncMap L × DialableListener L × Bool :=
  match m key with
  | some v => (m, v, true)
  | none => (Function.update m key (some value), value, false)

/-- Go `sync.Map.Delete`: removes the entry of the key. -/
def SyncMap.Delete {L : Type} (m : SyncMap L) (key : String) : SyncMap L :=
  Function.update m key none

/-- The histogram switches of the default client metrics of `grpc_prometheus`. -/
structure ClientMetrics where
  handlingTimeHistogram : Bool
  streamReceiveTimeHistogram : Bool
  streamSendTimeHistogram : Bool
  deriving DecidableEq, Repr

/-- The package-level variables of `options`, and the client metrics its calls
switch on. -/
structure State (L : Type) where
  env : Env
  ListenerForTest : DialableListener L
  listenersForTest : SyncMap L
  RecvMsgSize : Int
  SendMsgSize : Int
  clientMetrics : ClientMetrics

/-- The state at package initialisation: no listener, an empty registry and
the declared message sizes, `100 * 1024 * 1024` each. -/
def State.init (L : Type) (env : Env) : State L :=
  { env := env
    ListenerForTest := .nil
    listenersForTest := fun _ => none
    RecvMsgSize := 100 * 1024 * 1024
    SendMsgSize := 100 * 1024 * 1024
    clientMetrics := ⟨false, false, false⟩ }

/-- The value a panic carries. -/
inductive Panic where
  | randError
  | interfaceIsNil
  | value (msg : String)
  deriving DecidableEq, Repr

/-- Go `math.MaxInt64`. -/
def MaxInt64 : Nat := 9223372036854775807

/-- The result of `rand.Int(rand.Reader, big.NewInt(int64(math.MaxInt64)))`: an
error, or a value in `[0, MaxInt64)`. -/
inductive RandInt where
  | err
  | val (n : Nat) (h : n < MaxInt64)

/-- Go `big.Int.Int64` of a non-negative value: the low 64 bits read as a two's
complement number. -/
def bigInt64 (v : Nat) : Int :=
  (((v : Int) + 2 ^ 63) % 2 ^ 64) - 2 ^ 63

/-- The scheme name `fmt.Sprintf("test%d", val.Int64())`. -/
def testScheme (val : Nat) : String :=
  "test" ++ fmtD (bigInt64 val)

/-- One pass of the loop body of `RegisterListenerForTest` for a drawn value:
the registry after `LoadOrStore`, and the scheme when it was not conflicted. -/
def registerAttempt {L : Type} (listener : DialableListener L) (val : Nat) (m : SyncMap L) :
    SyncMap L × Option String :=
  let scheme := testScheme val
  match m.LoadOrStore scheme listener with
  | (m1, _, conflicted) => if !conflicted then (m1, some scheme) else (m1, none)

/-- The function `RegisterListenerForTest`, run on the successive results of
`rand.Int`. The result is `none` when the loop is still running after the
given draws. -/
def RegisterListenerForTest {L : Type} (listener : DialableListener L) :
    List RandInt → State L → Option (Except Panic (String × State L))
  | [], _ => none
  | .err :: _, _ => some (.error .randError)
  | .val n _ :: rest, st =>
    match registerAttempt listener n st.listenersForTest with
    | (m1, some scheme) => some (.ok (scheme, { st with listenersForTest := m1 }))
    | (m1, none) => RegisterListenerForTest listener rest { st with listenersForTest := m1 }

/-- The function `UnregisterTestListener`. -/
def UnregisterTestListener {L : Type} (scheme : String) (st : State L) : State L :=
  { st with listenersForTest := st.listenersForTest.Delete scheme }

/-- The function `getTestListener`: nil and false for an absent key; otherwise
the type assertion `v.(DialableListener)`, which panics on a nil value. -/
def getTestListener {L : Type} (scheme : String) (st : State L) :
    Except Panic (DialableListener L × Bool) :=
  match st.listenersForTest.Load scheme with
  | (_, false) => .ok (.nil, false)
  | (.nil, true) => .error .interfaceIsNil
  | (.impl l, true) => .ok (.impl l, true)

/-- The function `enableClientTimeHistogram`: each flag of `env` switches its
histogram on. The bucket bounds, floating point constants, are left out. -/
def enableClientTimeHistogram {L : Type} (st : State L) : State L :=
  let cm := st.clientMetrics
  let cm := if st.env.EnableClientHandlingTimeHistogram then { cm with handlingTimeHistogram := true } else cm
  let cm := if st.env.EnableClientStreamReceiveTimeHistogram then { cm with streamReceiveTimeHistogram := true } else cm
  let cm := if st.env.EnableClientStreamSendTimeHistogram then { cm with streamSendTimeHistogram := true } else cm
  { st with clientMetrics := cm }

/-- What `GRPCOptions` reads of its `url.URL` argument: the field `Scheme` and
the results of the methods `Hostname()` and `Port()`. -/
structure URL where
  Scheme : String
  Hostname : String
  Port : String
  deriving DecidableEq, Repr

/-- Go `net.JoinHostPort`: `host:port`, with the host in square brackets when
it contains a colon. -/
def JoinHostPort (host port : String) : String :=
  if ':' ∈ host.data then "[" ++ host ++ "]:" ++ port else host ++ ":" ++ port

/-- The client interceptors that are chained. -/
inductive Interceptor where
  | grpc_prometheus
  | otelgrpc
  deriving DecidableEq, Repr

/-- Transport credentials: `insecure.NewCredentials()`, or `credentials.NewTLS`
of a configuration with the given `MinVersion`. -/
inductive TransportCredentials where
  | insecure
  | tls (MinVersion : Nat)
  deriving DecidableEq, Repr

/-- Go `tls.VersionTLS12`. -/
def VersionTLS12 : Nat := 0x0303

/-- The call options that are set as defaults. -/
inductive CallOption where
  | MaxCallRecvMsgSize (bytes : Int)
  | MaxCallSendMsgSize (bytes : Int)
  deriving DecidableEq, Repr

/-- Go `context.Context`, of which the dialers use nothing. -/
structure Context where
  id : Nat

/-- A context dialer `func(context.Context, string) (net.Conn, error)` of this
package: every one returns `x.Dial()` for a listener value `x`, and the model
gives that `x`, for the package variables at the time of the call. -/
abbrev ContextDialer (L : Type) := State L → Context → String → DialableListener L

/-- The dial options `GRPCOptions` builds. -/
inductive DialOption (L : Type) where
  | WithChainUnaryInterceptor (interceptors : List Interceptor)
  | WithChainStreamInterceptor (interceptors : List Interceptor)
  | WithBlock
  | WithTransportCredentials (creds : TransportCredentials)
  | WithDefaultCallOptions (cos : List CallOption)
  | WithContextDialer (f : ContextDialer L)

/-- The function `GRPCOptions`: the address and the dial options, with the
package state after the call, or the panic. -/
def GRPCOptions {L : Type} (delegate : URL) (st : State L) :
    Except Panic ((String × List (DialOption L)) × State L) :=
  if delegate.Scheme = "http" then
    let port := "80"
    let port := if delegate.Port ≠ "" then delegate.Port else port
    let st1 := enableClientTimeHistogram st
    .ok ((JoinHostPort delegate.Hostname port,
      [ .WithChainUnaryInterceptor [.grpc_prometheus, .otelgrpc],
        .WithChainStreamInterceptor [.grpc_prometheus, .otelgrpc],
        .WithBlock,
        .WithTransportCredentials .insecure,
        .WithDefaultCallOptions [.MaxCallRecvMsgSize st1.RecvMsgSize, .MaxCallSendMsgSize st1.SendMsgSize] ]), st1)
  else if delegate.Scheme = "https" then
    let port := "443"
    let port := if delegate.Port ≠ "" then delegate.Port else port
    let st1 := enableClientTimeHistogram st
    .ok ((JoinHostPort delegate.Hostname port,
      [ .WithChainUnaryInterceptor [.grpc_prometheus, .otelgrpc],
        .WithChainStreamInterceptor [.grpc_prometheus, .otelgrpc],
        .WithBlock,
        .WithTransportCredentials (.tls VersionTLS12),
        .WithDefaultCallOptions [.MaxCallRecvMsgSize st1.RecvMsgSize, .MaxCallSendMsgSize st1.SendMsgSize] ]), st1)
  else if delegate.Scheme = "bufnet" then
    .ok (("bufnet",
      [ .WithTransportCredentials .insecure,
        .WithContextDialer (fun now _ _ => now.ListenerForTest) ]), st)
  else
    match getTestListener delegate.Scheme st with
    | .error p => .error p
    | .ok (listener, ok) =>
      if !ok then .error (.value "unreachable for valid delegates.")
      else
        .ok ((delegate.Scheme,
          [ .WithTransportCredentials .insecure,
            .WithContextDialer (fun _ _ _ => listener) ]), st)

/-- The credentials of a transport-credentials option. -/
def DialOption.transportCredentials {L : Type} : DialOption L → Option TransportCredentials
  | .WithTransportCredentials c => some c
  | _ => none

/-- The interceptors of a unary interceptor chain option. -/
def DialOption.unaryChain {L : Type} : DialOption L → Option (List Interceptor)
  | .WithChainUnaryInterceptor is => some is
  | _ => none

/-- The interceptors of a stream interceptor chain option. -/
def DialOption.streamChain {L : Type} : DialOption L → Option (List Interceptor)
  | .WithChainStreamInterceptor is => some is
  | _ => none

/-- The call options of a default-call-options option. -/
def DialOption.defaultCallOptions {L : Type} : DialOption L → Option (List CallOption)
  | .WithDefaultCallOptions cos => some cos
  | _ => none

/-- The dialer of a context-dialer option. -/
def DialOption.contextDialer {L : Type} : DialOption L → Option (ContextDialer L)
  | .WithContextDialer f => some f
  | _ => none

/-- The options hold a unary and a stream interceptor chain, each with the
metrics interceptor before the tracing one, and default call options that set
the receive and send limits to the `RecvMsgSize` and `SendMsgSize` of the
package state. -/
def attachesInterceptorsAndLimits {L : Type} (st : State L) (opts : List (DialOption L)) : Prop :=
  (∃ o ∈ opts, o.unaryChain = some [Interceptor.grpc_prometheus, Interceptor.otelgrpc])
  ∧ (∃ o ∈ opts, o.streamChain = some [Interceptor.grpc_prometheus, Interceptor.otelgrpc])
  ∧ (∃ o ∈ opts, o.defaultCallOptions
      = some [CallOption.MaxCallRecvMsgSize st.RecvMsgSize, CallOption.MaxCallSendMsgSize st.SendMsgSize])

/-- Calls of `RegisterListenerForTest` running side by side: the package
state, the scheme each call has returned so far (by call number), and whether
a call has panicked. -/
structure Registrations (L : Type) where
  st : State L
  returned : Nat → Option String
  panicked : Bool

/-- One scheduling step: call number `e.1`, given the listener at that place
of `ls`, runs one pass of its loop with `e.2` as the result of `rand.Int`; the
`LoadOrStore` of the pass is atomic. A call that has returned, or a number
without a call, does nothing; nothing runs after a panic. -/
def Registrations.step {L : Type} (ls : List (DialableListener L)) (p : Registrations L)
    (e : Nat × RandInt) : Registrations L :=
  if p.panicked then p
  else
    match ls[e.1]?, p.returned e.1, e.2 with
    | some l, none, .val n _ =>
      match registerAttempt l n p.st.listenersForTest with
      | (m1, some scheme) =>
        { p with st := { p.st with listenersForTest := m1 }
                 returned := Function.update p.returned e.1 (some scheme) }
      | (m1, none) => { p with st := { p.st with listenersForTest := m1 } }
    | some _, none, .err => { p with panicked := true }
    | _, _, _ => p

/-- An interleaving of the calls, from a package state in which none has
returned yet. -/
def Registrations.run {L : Type} (ls : List (DialableListener L)) (st0 : State L)
    (evs : List (Nat × RandInt)) : Registrations L :=
  evs.foldl (Registrations.step ls) ⟨st0, fun _ => none, false⟩

/-- What holds of the calls at every point of an interleaving that started in
`st0`: no scheme was returned to two calls; a returned scheme was not a key in
`st0` and is now mapped to the listener of its call; the entries of `st0` are
still there. -/
def Registrations.Inv {L : Type} (ls : List (DialableListener L)) (st0 : State L)
    (p : Registrations L) : Prop :=
  (∀ i j s, p.returned i = some s → p.returned j = some s → i = j)
  ∧ (∀ i s, p.returned i = some s →
      st0.listenersForTest s = none ∧ ∃ l, ls[i]? = some l ∧ p.st.listenersForTest s = some l)
  ∧ (∀ k v, st0.listenersForTest k = some v → p.st.listenersForTest k = some v)

/-- An operation on the package state by a client of the package. -/
inductive Op (L : Type) where
  | register (listener : DialableListener L) (draws : List RandInt)
  | unregister (scheme : String)
  | resolve (delegate : URL)
  | setListenerForTest (listener : DialableListener L)
  | setMsgSizes (recv send : Int)

/-- The package state after an operation; a call that does not return leaves
it as it was. -/
def Op.apply {L : Type} (st : State L) : Op L → State L
  | .register listener draws =>
    match RegisterListenerForTest listener draws st with
    | some (.ok (_, st1)) => st1
    | _ => st
  | .unregister scheme => UnregisterTestListener scheme st
  | .resolve delegate =>
    match GRPCOptions delegate st with
    | .ok (_, st1) => st1
    | .error _ => st
  | .setListenerForTest listener => { st with ListenerForTest := listener }
  | .setMsgSizes recv send => { st with RecvMsgSize := recv, SendMsgSize := send }

/-- The package state after a sequence of operations. -/
def applyOps {L : Type} (ops : List (Op L)) (st : State L) : State L :=
  ops.foldl Op.apply st

end options

end GrpcKit

/-! ## Theorems -/

namespace GrpcKit

open duplex options

/-- The scan of `strings.Contains` finds exactly the infixes. -/
theorem containsChars_iff_occurs (s sub : List Char) :
    containsChars s sub = true ↔ sub <:+: s := by
  induction s with
  | nil =>
    simp only [containsChars, List.infix_nil]
    rw [ List.isPrefixOf_iff_prefix, List.prefix_nil]
  | cons c s ih =>
    simp only [containsChars, Bool.or_eq_true, ih, List.infix_cons_iff]
    rw [ List.isPrefixOf_iff_prefix]

/-- The handler function makes one forwarding call: to the gRPC server when
the routing condition holds of the request, to the HTTP handler when not. -/
theorem handlerFunc_cases {W : Type} (w : W) (r : Request) :
    (grpcHandlerFunc.handlerFunc w r = [Call.grpcServerServeHTTP w r] ∧ isGrpcRequest r)
    ∨ (grpcHandlerFunc.handlerFunc w r = [Call.httpHandlerServeHTTP w r] ∧ ¬ isGrpcRequest r) := by
  have key : (r.ProtoMajor = 2 ∧
      stringsContains (r.Header.Get "Content-Type") "application/grpc" = true)
        ↔ isGrpcRequest r := by
    unfold isGrpcRequest stringsContains
    rw [containsChars_iff_occurs]
  by_cases h : r.ProtoMajor = 2 ∧
      stringsContains (r.Header.Get "Content-Type") "application/grpc" = true
  · left
    exact ⟨by simp only [grpcHandlerFunc.handlerFunc, if_pos h], key.mp h⟩
  · right
    exact ⟨by simp only [grpcHandlerFunc.handlerFunc, if_neg h], fun hc => h (key.mpr hc)⟩

/-- Every call made while an HTTP/2 connection is served with the handler
function goes to the target that the routing condition gives for the request
of the call. -/
theorem ServeConn_handlerFunc_calls {W : Type} (conn : List (W × Request)) :
    ∀ c ∈ http2.ServeConn grpcHandlerFunc.handlerFunc conn,
      (c.isGrpc = true ↔ isGrpcRequest c.request)
      ∧ (c.isHttp = true ↔ ¬ isGrpcRequest c.request) := by
  have hone : ∀ (w : W) (r : Request), ∀ c ∈ grpcHandlerFunc.handlerFunc w r,
      (c.isGrpc = true ↔ isGrpcRequest c.request)
      ∧ (c.isHttp = true ↔ ¬ isGrpcRequest c.request) := by
    intro w r c hc
    rcases handlerFunc_cases w r with ⟨he, hg⟩ | ⟨he, hg⟩
    · rw [he, List.mem_singleton] at hc
      subst hc
      simp [Call.isGrpc, Call.isHttp, Call.request, hg]
    · rw [he, List.mem_singleton] at hc
      subst hc
      simp [Call.isGrpc, Call.isHttp, Call.request, hg]
  induction conn with
  | nil => intro c hc; simp [http2.ServeConn] at hc
  | cons p rest ih =>
    intro c hc
    obtain ⟨w, r⟩ := p
    simp only [http2.ServeConn, List.mem_append] at hc
    rcases hc with hc | hc
    · exact hone w r c hc
    · exact ih c hc

/-- C1 fails for the client preface of HTTP/2 with prior knowledge: the handler
of `grpcHandlerFunc` keeps it to itself, so that, when the connection cannot
be taken over, neither target is called, although the routing condition asks
for the HTTP handler; a request with the same protocol major version and the
same Content-Type header but the method GET goes to the HTTP handler. -/
theorem grpcHandlerFunc_preface_not_forwarded :
    grpcHandlerFunc (⟨fun _ => false, fun _ _ => [], fun _ _ => []⟩ : h2c.Env Unit) ()
        ⟨"PRI", "*", "HTTP/2.0", 2, 0, [], []⟩ = []
    ∧ ¬ isGrpcRequest ⟨"PRI", "*", "HTTP/2.0", 2, 0, [], []⟩
    ∧ grpcHandlerFunc (⟨fun _ => false, fun _ _ => [], fun _ _ => []⟩ : h2c.Env Unit) ()
        ⟨"GET", "*", "HTTP/2.0", 2, 0, [], []⟩
      = [Call.httpHandlerServeHTTP () ⟨"GET", "*", "HTTP/2.0", 2, 0, [], []⟩]
    ∧ (⟨"GET", "*", "HTTP/2.0", 2, 0, [], []⟩ : Request).ProtoMajor
        = (⟨"PRI", "*", "HTTP/2.0", 2, 0, [], []⟩ : Request).ProtoMajor
    ∧ (⟨"GET", "*", "HTTP/2.0", 2, 0, [], []⟩ : Request).Header.Get "Content-Type"
        = (⟨"PRI", "*", "HTTP/2.0", 2, 0, [], []⟩ : Request).Header.Get "Content-Type" := by
  refine ⟨by decide, ?_, by decide, rfl, rfl⟩
  rintro ⟨-, hc⟩
  rw [← containsChars_iff_occurs] at hc
  revert hc
  decide

/-- C1, amended: for a request that is neither the prior-knowledge preface nor
an h2c upgrade request, the handler of `grpcHandlerFunc` makes exactly one
forwarding call; it is to the gRPC server exactly when the protocol major
version is 2 and the Content-Type header contains "application/grpc", and to
the HTTP handler in every other case; two such requests that agree on the
protocol major version and on the Content-Type header go to the same target,
whatever their method, path and body. For any request at all, every
forwarding call that is made goes to the gRPC server exactly when that
condition holds of the request forwarded, and to the HTTP handler exactly when
it does not. -/
theorem grpcHandlerFunc_routes {W : Type} (env : h2c.Env W) (w : W) (r : Request)
    (hpk : ¬ h2c.isPriorKnowledge r) (hup : env.isH2CUpgrade r.Header = false) :
    (grpcHandlerFunc env w r).length = 1
    ∧ (grpcHandlerFunc env w r = [Call.grpcServerServeHTTP w r] ↔ isGrpcRequest r)
    ∧ (grpcHandlerFunc env w r = [Call.httpHandlerServeHTTP w r] ↔ ¬ isGrpcRequest r)
    ∧ (∀ (w2 : W) (r2 : Request), ¬ h2c.isPriorKnowledge r2 →
        env.isH2CUpgrade r2.Header = false → r2.ProtoMajor = r.ProtoMajor →
        r2.Header.Get "Content-Type" = r.Header.Get "Content-Type" →
        (grpcHandlerFunc env w2 r2).map Call.isGrpc = (grpcHandlerFunc env w r).map Call.isGrpc)
    ∧ (∀ (w0 : W) (r0 : Request), ∀ c ∈ grpcHandlerFunc env w0 r0,
        (c.isGrpc = true ↔ isGrpcRequest c.request)
        ∧ (c.isHttp = true ↔ ¬ isGrpcRequest c.request)) := by
  have hdirect : ∀ (w1 : W) (r1 : Request), ¬ h2c.isPriorKnowledge r1 →
      env.isH2CUpgrade r1.Header = false →
      grpcHandlerFunc env w1 r1 = grpcHandlerFunc.handlerFunc w1 r1 := by
    intro w1 r1 h1 h2
    simp only [grpcHandlerFunc, h2c.NewHandler, if_neg h1, h2, Bool.false_eq_true, if_false]
  rw [hdirect w r hpk hup]
  refine ⟨?_, ?_, ?_, ?_, ?_⟩
  · rcases handlerFunc_cases w r with ⟨he, -⟩ | ⟨he, -⟩ <;> rw [he] <;> rfl
  · rcases handlerFunc_cases w r with ⟨he, hg⟩ | ⟨he, hg⟩
    · rw [he]
      exact ⟨fun _ => hg, fun _ => rfl⟩
    · rw [he]
      refine ⟨fun hc => ?_, fun hc => absurd hc hg⟩
      cases hc
  · rcases handlerFunc_cases w r with ⟨he, hg⟩ | ⟨he, hg⟩
    · rw [he]
      refine ⟨fun hc => ?_, fun hc => absurd hg hc⟩
      cases hc
    · rw [he]
      exact ⟨fun _ => hg, fun _ => rfl⟩
  · intro w2 r2 h1 h2 hp hct
    rw [hdirect w2 r2 h1 h2]
    simp only [grpcHandlerFunc.handlerFunc, hp, hct]
    split <;> rfl
  · intro w0 r0 c hc
    simp only [grpcHandlerFunc, h2c.NewHandler] at hc
    split at hc
    · exact ServeConn_handlerFunc_calls _ c hc
    · split at hc
      · exact ServeConn_handlerFunc_calls _ c hc
      · have := ServeConn_handlerFunc_calls [(w0, r0)] c
          (by simpa [http2.ServeConn] using hc)
        exact this

/-- C1, amended, at a POST over HTTP/2 with Content-Type
"application/grpc+proto": one call, to the gRPC server. -/
theorem grpcHandlerFunc_routes_witness :
    grpcHandlerFunc (⟨fun _ => false, fun _ _ => [], fun _ _ => []⟩ : h2c.Env Unit) ()
        ⟨"POST", "/svc/Method", "HTTP/2.0", 2, 0,
          [("Content-Type", ["application/grpc+proto"])], []⟩
      = [Call.grpcServerServeHTTP ()
          ⟨"POST", "/svc/Method", "HTTP/2.0", 2, 0,
            [("Content-Type", ["application/grpc+proto"])], []⟩] :=
  (grpcHandlerFunc_routes (⟨fun _ => false, fun _ _ => [], fun _ _ => []⟩ : h2c.Env Unit) ()
      ⟨"POST", "/svc/Method", "HTTP/2.0", 2, 0,
        [("Content-Type", ["application/grpc+proto"])], []⟩
      (by decide) rfl).2.1.mpr
    ⟨rfl, by rw [← containsChars_iff_occurs]; decide⟩

/-- The type switch loop, from any accumulators: without an unknown element it
returns the accumulators extended by the two typed sublists. -/
theorem splitOpts_known {S M : Type} (opts : List (Opt S M)) :
    ∀ (g : List S) (m : List M), (∀ o ∈ opts, o.isUnknown = false) →
      splitOpts opts g m
        = .ok (g ++ opts.filterMap Opt.asServerOption, m ++ opts.filterMap Opt.asServeMuxOption) := by
  induction opts with
  | nil => intro g m _; simp [splitOpts]
  | cons o rest ih =>
    intro g m h
    have hrest : ∀ x ∈ rest, x.isUnknown = false := fun x hx => h x (List.mem_cons_of_mem _ hx)
    have ho := h o (List.mem_cons_self _ _)
    cases o with
    | serverOption a => simp [splitOpts, ih _ _ hrest, Opt.asServerOption, Opt.asServeMuxOption]
    | serveMuxOption a => simp [splitOpts, ih _ _ hrest, Opt.asServerOption, Opt.asServeMuxOption]
    | other t => simp [Opt.isUnknown] at ho

/-- The type switch loop, from any accumulators: with an unknown element it
panics. -/
theorem splitOpts_unknown {S M : Type} (opts : List (Opt S M)) :
    ∀ (g : List S) (m : List M), (∃ o ∈ opts, o.isUnknown = true) →
      ∃ e, splitOpts opts g m = .error e := by
  induction opts with
  | nil => intro g m h; simp at h
  | cons o rest ih =>
    intro g m h
    cases o with
    | serverOption a =>
      have : ∃ x ∈ rest, x.isUnknown = true := by simpa [Opt.isUnknown] using h
      simpa [splitOpts] using ih _ _ this
    | serveMuxOption a =>
      have : ∃ x ∈ rest, x.isUnknown = true := by simpa [Opt.isUnknown] using h
      simpa [splitOpts] using ih _ _ this
    | other t => exact ⟨_, rfl⟩

/-- The `%d` verb writes an integer as Lean prints it. -/
theorem fmtD_eq_toString (i : Int) : fmtD i = toString i := by
  cases i with
  | ofNat n =>
    have h : ¬ (Int.ofNat n < 0) := by
      intro hc
      exact absurd hc (Int.not_lt.mpr (Int.ofNat_nonneg n))
    simp only [fmtD, if_neg h]
    rfl
  | negSucc n =>
    have h : Int.negSucc n < 0 := Int.negSucc_lt_zero n
    simp only [fmtD, if_pos h]
    rfl

/-- A server built by `grpc.NewServer` was called with the options given. -/
theorem grpc.NewServer_opt {SO : Type} (defaults : SO) (l : List (grpc.ServerOption SO))
    (srv : grpc.Server SO) (h : grpc.NewServer defaults l = .ok srv) : srv.opt = l := by
  unfold grpc.NewServer at h
  cases ha : grpc.applyAll l defaults with
  | error e => rw [ha] at h; cases h
  | ok o => rw [ha] at h; cases h; rfl

/-- A mux built by `runtime.NewServeMux` was called with the options given. -/
theorem runtime.NewServeMux_opts {MX : Type} (fresh : MX) (l : List (runtime.ServeMuxOption MX))
    (mux : runtime.ServeMux MX) (h : runtime.NewServeMux fresh l = .ok mux) : mux.opts = l := by
  unfold runtime.NewServeMux at h
  cases ha : runtime.applyAll l fresh with
  | error e => rw [ha] at h; cases h
  | ok o => rw [ha] at h; cases h; rfl

/-- Server options whose `apply` always returns are all applied. -/
theorem grpc.applyAll_options_return {SO : Type} (l : List (grpc.ServerOption SO)) :
    ∀ so : SO, (∀ o ∈ l, ∀ x, ∃ y, o.apply x = .ok y) → ∃ so1, grpc.applyAll l so = .ok so1 := by
  induction l with
  | nil => intro so _; exact ⟨so, rfl⟩
  | cons o rest ih =>
    intro so h
    obtain ⟨y, hy⟩ := h o (List.mem_cons_self _ _) so
    obtain ⟨z, hz⟩ := ih y (fun o2 ho2 => h o2 (List.mem_cons_of_mem _ ho2))
    exact ⟨z, by simp only [grpc.applyAll, hy, hz]⟩

/-- Mux options that are not nil and always return are all applied. -/
theorem runtime.applyAll_funcs_return {MX : Type} (l : List (runtime.ServeMuxOption MX)) :
    ∀ mux : MX, (∀ o ∈ l, ∃ f, o = runtime.ServeMuxOption.fn f ∧ ∀ x, ∃ y, f x = .ok y) →
      ∃ mux1, runtime.applyAll l mux = .ok mux1 := by
  induction l with
  | nil => intro mux _; exact ⟨mux, rfl⟩
  | cons o rest ih =>
    intro mux h
    obtain ⟨f, hf, hret⟩ := h o (List.mem_cons_self _ _)
    obtain ⟨y, hy⟩ := hret mux
    obtain ⟨z, hz⟩ := ih y (fun o2 ho2 => h o2 (List.mem_cons_of_mem _ ho2))
    subst hf
    exact ⟨z, by simp only [runtime.applyAll, hy, hz]⟩

/-- The two typed sublists of a list without an unknown element cover it. -/
theorem filterMap_lengths {S M : Type} (l : List (Opt S M)) :
    (∀ o ∈ l, o.isUnknown = false) →
      (l.filterMap Opt.asServerOption).length + (l.filterMap Opt.asServeMuxOption).length
        = l.length := by
  induction l with
  | nil => intro _; rfl
  | cons o rest ih =>
    intro h
    have hrest := ih (fun x hx => h x (List.mem_cons_of_mem _ hx))
    have ho := h o (List.mem_cons_self _ _)
    cases o with
    | serverOption a =>
      simp [Opt.asServerOption, Opt.asServeMuxOption] at hrest ⊢
      omega
    | serveMuxOption a =>
      simp [Opt.asServerOption, Opt.asServeMuxOption] at hrest ⊢
      omega
    | other t => simp [Opt.isUnknown] at ho

/-- The function `New` on a list without an unknown element: the server is
built from the server options, then the mux from the mux options. -/
theorem New_known {SO MX : Type} (defaults : SO) (fresh : MX) (port : Int)
    (opts : List (Opt (grpc.ServerOption SO) (runtime.ServeMuxOption MX)))
    (h : ∀ o ∈ opts, o.isUnknown = false) :
    New defaults fresh port opts =
      match grpc.NewServer defaults (opts.filterMap Opt.asServerOption) with
      | .error e => .error e
      | .ok server =>
        match runtime.NewServeMux fresh (opts.filterMap Opt.asServeMuxOption) with
        | .error e => .error e
        | .ok mux =>
          .ok { Server := server
                MUX := mux
                Loopback := "localhost:" ++ toString port
                Port := port
                DialOptions := [DialOption.WithTransportCredentialsInsecure] } := by
  simp only [New, splitOpts_known opts [] [] h, List.nil_append, fmtD_eq_toString]

/-- C7 fails for a nil `runtime.ServeMuxOption`: every element of the list is a
`runtime.ServeMuxOption`, and `New` panics, inside `runtime.NewServeMux`. -/
theorem New_nil_ServeMuxOption_panics :
    (∀ o ∈ ([Opt.serveMuxOption runtime.ServeMuxOption.nil] :
        List (Opt (grpc.ServerOption Unit) (runtime.ServeMuxOption Unit))), o.isUnknown = false)
    ∧ New () () 8080 ([Opt.serveMuxOption runtime.ServeMuxOption.nil] :
        List (Opt (grpc.ServerOption Unit) (runtime.ServeMuxOption Unit)))
      = .error "runtime error: invalid memory address or nil pointer dereference" := by
  refine ⟨?_, rfl⟩
  intro o ho
  rw [List.mem_singleton] at ho
  subst ho
  rfl

/-- C7, amended: `New` panics exactly when some option is neither a
`grpc.ServerOption` nor a `runtime.ServeMuxOption`, or `grpc.NewServer` panics
on the server options of the list, or `runtime.NewServeMux` panics on the mux
options of the list. When it returns, `grpc.NewServer` was called with the
server options of the list, in order, and `runtime.NewServeMux` with the mux
options of the list, in order, these two lists together have as many elements
as the option list, `Port` is the given port and `Loopback` is "localhost:"
followed by the port in decimal. It returns when no option is of another type,
every `apply` of a server option returns, and every mux option is a function,
not nil, that returns. For port 8080 and no options `Loopback` is
"localhost:8080". -/
theorem New_splits_options {SO MX : Type} (defaults : SO) (fresh : MX) (port : Int)
    (opts : List (Opt (grpc.ServerOption SO) (runtime.ServeMuxOption MX))) :
    ((∃ e, New defaults fresh port opts = .error e) ↔
        ((∃ o ∈ opts, o.isUnknown = true)
        ∨ (∃ e, grpc.NewServer defaults (opts.filterMap Opt.asServerOption) = .error e)
        ∨ (∃ e, runtime.NewServeMux fresh (opts.filterMap Opt.asServeMuxOption) = .error e)))
    ∧ (∀ d, New defaults fresh port opts = .ok d →
        grpc.NewServer defaults (opts.filterMap Opt.asServerOption) = .ok d.Server
        ∧ runtime.NewServeMux fresh (opts.filterMap Opt.asServeMuxOption) = .ok d.MUX
        ∧ d.Server.opt = opts.filterMap Opt.asServerOption
        ∧ d.MUX.opts = opts.filterMap Opt.asServeMuxOption
        ∧ d.Server.opt.length + d.MUX.opts.length = opts.length
        ∧ d.Port = port
        ∧ d.Loopback = "localhost:" ++ toString port)
    ∧ ((∀ o ∈ opts, o.isUnknown = false) →
        (∀ o ∈ opts.filterMap Opt.asServerOption, ∀ x, ∃ y, o.apply x = .ok y) →
        (∀ o ∈ opts.filterMap Opt.asServeMuxOption,
          ∃ f, o = runtime.ServeMuxOption.fn f ∧ ∀ x, ∃ y, f x = .ok y) →
        ∃ d, New defaults fresh port opts = .ok d)
    ∧ (New defaults fresh 8080 [] = .ok
        { Server := { opt := [], opts := defaults }
          MUX := { opts := [], mux := fresh }
          Loopback := "localhost:8080"
          Port := 8080
          DialOptions := [DialOption.WithTransportCredentialsInsecure] }) := by
  refine ⟨?_, ?_, ?_, rfl⟩
  · by_cases hu : ∃ o ∈ opts, o.isUnknown = true
    · obtain ⟨e, he⟩ := splitOpts_unknown opts [] [] hu
      exact ⟨fun _ => Or.inl hu, fun _ => ⟨e, by simp only [New, he]⟩⟩
    · have hk : ∀ o ∈ opts, o.isUnknown = false := by
        intro o ho
        cases hb : o.isUnknown
        · rfl
        · exact absurd ⟨o, ho, hb⟩ hu
      rw [New_known defaults fresh port opts hk]
      cases hs : grpc.NewServer defaults (opts.filterMap Opt.asServerOption) with
      | error e1 => exact ⟨fun _ => Or.inr (Or.inl ⟨e1, rfl⟩), fun _ => ⟨e1, rfl⟩⟩
      | ok server =>
        cases hm : runtime.NewServeMux fresh (opts.filterMap Opt.asServeMuxOption) with
        | error e2 => exact ⟨fun _ => Or.inr (Or.inr ⟨e2, rfl⟩), fun _ => ⟨e2, rfl⟩⟩
        | ok mux =>
          refine ⟨?_, ?_⟩
          · rintro ⟨e, he⟩
            cases he
          · rintro (hc | ⟨e, hc⟩ | ⟨e, hc⟩)
            · exact absurd hc hu
            · cases hc
            · cases hc
  · intro d hd
    by_cases hu : ∃ o ∈ opts, o.isUnknown = true
    · obtain ⟨e, he⟩ := splitOpts_unknown opts [] [] hu
      simp only [New, he] at hd
      cases hd
    · have hk : ∀ o ∈ opts, o.isUnknown = false := by
        intro o ho
        cases hb : o.isUnknown
        · rfl
        · exact absurd ⟨o, ho, hb⟩ hu
      rw [New_known defaults fresh port opts hk] at hd
      cases hs : grpc.NewServer defaults (opts.filterMap Opt.asServerOption) with
      | error e1 => rw [hs] at hd; cases hd
      | ok server =>
        rw [hs] at hd
        cases hm : runtime.NewServeMux fresh (opts.filterMap Opt.asServeMuxOption) with
        | error e2 => rw [hm] at hd; cases hd
        | ok mux =>
          rw [hm] at hd
          cases hd
          have h1 := grpc.NewServer_opt defaults _ server hs
          have h2 := runtime.NewServeMux_opts fresh _ mux hm
          refine ⟨rfl, rfl, h1, h2, ?_, rfl, rfl⟩
          simp only [h1, h2]
          exact filterMap_lengths opts hk
  · intro hk hsrv hmux
    rw [New_known defaults fresh port opts hk]
    obtain ⟨so1, hso⟩ := grpc.applyAll_options_return _ defaults hsrv
    obtain ⟨m1, hm1⟩ := runtime.applyAll_funcs_return _ fresh hmux
    simp only [grpc.NewServer, hso, runtime.NewServeMux, hm1]
    exact ⟨_, rfl⟩

/-- C9: the observability mux has the single path "/metrics" when profiling is
off, so no registered path starts with "/debug/pprof"; when profiling is on it
has "/metrics" and the eleven profiling paths; "/metrics" is there in both
cases. -/
theorem RegisterListenAndServeMetrics_paths (port : Int) :
    (RegisterListenAndServeMetrics port false).mux.patterns = ["/metrics"]
    ∧ (∀ p ∈ (RegisterListenAndServeMetrics port false).mux.patterns,
        ¬ "/debug/pprof".data <+: p.data)
    ∧ (RegisterListenAndServeMetrics port true).mux.patterns
        = ["/metrics", "/debug/pprof/", "/debug/pprof/cmdline", "/debug/pprof/profile",
           "/debug/pprof/symbol", "/debug/pprof/trace", "/debug/pprof/allocs",
           "/debug/pprof/block", "/debug/pprof/goroutine", "/debug/pprof/heap",
           "/debug/pprof/mutex", "/debug/pprof/threadcreate"]
    ∧ (∀ b, "/metrics" ∈ (RegisterListenAndServeMetrics port b).mux.patterns) := by
  have h0 : (RegisterListenAndServeMetrics port false).mux.patterns = ["/metrics"] := rfl
  refine ⟨h0, ?_, rfl, ?_⟩
  · intro p hp
    rw [h0] at hp
    simp only [List.mem_singleton] at hp
    subst hp
    decide
  · intro b
    cases b
    · rw [h0]; simp
    · simp [RegisterListenAndServeMetrics, ServeMux.patterns, ServeMux.Handle]

/-- The "http" case of `GRPCOptions`. -/
theorem GRPCOptions_http_eq {L : Type} (st : State L) (d : URL) (h : d.Scheme = "http") :
    GRPCOptions d st = .ok ((JoinHostPort d.Hostname (if d.Port ≠ "" then d.Port else "80"),
      [ .WithChainUnaryInterceptor [.grpc_prometheus, .otelgrpc],
        .WithChainStreamInterceptor [.grpc_prometheus, .otelgrpc],
        .WithBlock,
        .WithTransportCredentials .insecure,
        .WithDefaultCallOptions [.MaxCallRecvMsgSize st.RecvMsgSize, .MaxCallSendMsgSize st.SendMsgSize] ]),
      enableClientTimeHistogram st) := by
  simp only [GRPCOptions, h, if_true]
  rfl

/-- The "https" case of `GRPCOptions`. -/
theorem GRPCOptions_https_eq {L : Type} (st : State L) (d : URL) (h : d.Scheme = "https") :
    GRPCOptions d st = .ok ((JoinHostPort d.Hostname (if d.Port ≠ "" then d.Port else "443"),
      [ .WithChainUnaryInterceptor [.grpc_prometheus, .otelgrpc],
        .WithChainStreamInterceptor [.grpc_prometheus, .otelgrpc],
        .WithBlock,
        .WithTransportCredentials (.tls VersionTLS12),
        .WithDefaultCallOptions [.MaxCallRecvMsgSize st.RecvMsgSize, .MaxCallSendMsgSize st.SendMsgSize] ]),
      enableClientTimeHistogram st) := by
  have h1 : d.Scheme ≠ "http" := by rw [h]; decide
  simp only [GRPCOptions, if_neg h1, h, if_true]
  rfl

/-- The "bufnet" case of `GRPCOptions`. -/
theorem GRPCOptions_bufnet_eq {L : Type} (st : State L) (d : URL) (h : d.Scheme = "bufnet") :
    GRPCOptions d st = .ok (("bufnet",
      [ .WithTransportCredentials .insecure,
        .WithContextDialer (fun now _ _ => now.ListenerForTest) ]), st) := by
  have h1 : d.Scheme ≠ "http" := by rw [h]; decide
  have h2 : d.Scheme ≠ "https" := by rw [h]; decide
  rw [GRPCOptions, if_neg h1, if_neg h2, if_pos h]

/-- The default case of `GRPCOptions`, by the entry of the scheme in the
registry. -/
theorem GRPCOptions_default_eq {L : Type} (st : State L) (d : URL)
    (h1 : d.Scheme ≠ "http") (h2 : d.Scheme ≠ "https") (h3 : d.Scheme ≠ "bufnet") :
    GRPCOptions d st =
      match st.listenersForTest d.Scheme with
      | none => .error (.value "unreachable for valid delegates.")
      | some .nil => .error .interfaceIsNil
      | some (.impl l) => .ok ((d.Scheme,
          [ .WithTransportCredentials .insecure,
            .WithContextDialer (fun _ _ _ => .impl l) ]), st) := by
  simp only [GRPCOptions, if_neg h1, if_neg h2, if_neg h3, getTestListener, SyncMap.Load]
  cases hm : st.listenersForTest d.Scheme with
  | none => rfl
  | some v =>
    cases v with
    | nil => rfl
    | impl l => rfl

/-- C2: for an "http" or "https" delegate, `GRPCOptions` returns the host-port
join of `delegate.Hostname()` with `delegate.Port()` when that is not empty,
and otherwise with "80" for "http" and "443" for "https". -/
theorem GRPCOptions_address {L : Type} (st : State L) (d : URL)
    (h : d.Scheme = "http" ∨ d.Scheme = "https") :
    ∃ opts st1, GRPCOptions d st
      = .ok ((JoinHostPort d.Hostname
              (if d.Port ≠ "" then d.Port else if d.Scheme = "http" then "80" else "443"),
            opts), st1) := by
  rcases h with h | h
  · rw [GRPCOptions_http_eq st d h, if_pos h]
    exact ⟨_, _, rfl⟩
  · have h1 : d.Scheme ≠ "http" := by rw [h]; decide
    rw [GRPCOptions_https_eq st d h, if_neg h1]
    exact ⟨_, _, rfl⟩

/-- C2 at "https://example.com:8443" and at "http://example.com": the explicit
port is kept, and the missing one becomes 80. -/
theorem GRPCOptions_address_witness :
    (∃ opts st1, GRPCOptions ⟨"https", "example.com", "8443"⟩ (State.init Nat ⟨true, true, true⟩)
      = .ok (("example.com:8443", opts), st1))
    ∧ (∃ opts st1, GRPCOptions ⟨"http", "example.com", ""⟩ (State.init Nat ⟨true, true, true⟩)
      = .ok (("example.com:80", opts), st1)) :=
  ⟨GRPCOptions_address (State.init Nat ⟨true, true, true⟩) ⟨"https", "example.com", "8443"⟩
      (Or.inr rfl),
   GRPCOptions_address (State.init Nat ⟨true, true, true⟩) ⟨"http", "example.com", ""⟩
      (Or.inl rfl)⟩

/-- C3: for an "https" delegate the returned options hold exactly one
transport-credentials option, TLS credentials with minimum version TLS 1.2
(0x0303), and no option is insecure credentials. -/
theorem GRPCOptions_https_credentials {L : Type} (st : State L) (d : URL)
    (h : d.Scheme = "https") :
    ∃ addr opts st1, GRPCOptions d st = .ok ((addr, opts), st1)
      ∧ opts.filterMap DialOption.transportCredentials = [TransportCredentials.tls VersionTLS12]
      ∧ VersionTLS12 = 0x0303
      ∧ ∀ o ∈ opts, o.transportCredentials ≠ some TransportCredentials.insecure := by
  refine ⟨_, _, _, GRPCOptions_https_eq st d h, rfl, rfl, ?_⟩
  intro o ho
  simp only [List.mem_cons, List.mem_singleton, List.not_mem_nil, or_false] at ho
  rcases ho with rfl | rfl | rfl | rfl | rfl <;> simp [DialOption.transportCredentials]

/-- C3 at "https://example.com". -/
theorem GRPCOptions_https_credentials_witness :
    ∃ addr opts st1,
      GRPCOptions ⟨"https", "example.com", ""⟩ (State.init Nat ⟨true, false, true⟩)
        = .ok ((addr, opts), st1)
      ∧ opts.filterMap DialOption.transportCredentials = [TransportCredentials.tls VersionTLS12]
      ∧ VersionTLS12 = 0x0303
      ∧ ∀ o ∈ opts, o.transportCredentials ≠ some TransportCredentials.insecure :=
  GRPCOptions_https_credentials (State.init Nat ⟨true, false, true⟩) ⟨"https", "example.com", ""⟩ rfl

/-- C6: after `UnregisterTestListener(s)` the lookup of `s` reports not found
and the lookup of every other name is as before; an absent `s` leaves the
package state as it was; unregistering twice is the same as once. -/
theorem UnregisterTestListener_removes {L : Type} (st : State L) (s : String) :
    getTestListener s (UnregisterTestListener s st) = .ok (DialableListener.nil, false)
    ∧ (∀ k, k ≠ s → getTestListener k (UnregisterTestListener s st) = getTestListener k st)
    ∧ (st.listenersForTest s = none → UnregisterTestListener s st = st)
    ∧ UnregisterTestListener s (UnregisterTestListener s st) = UnregisterTestListener s st := by
  refine ⟨?_, ?_, ?_, ?_⟩
  · simp [getTestListener, UnregisterTestListener, SyncMap.Load, SyncMap.Delete]
  · intro k hk
    simp [getTestListener, UnregisterTestListener, SyncMap.Load, SyncMap.Delete,
      Function.update_noteq hk]
  · intro habs
    have : Function.update st.listenersForTest s none = st.listenersForTest := by
      rw [← habs]
      exact Function.update_eq_self s st.listenersForTest
    simp [UnregisterTestListener, SyncMap.Delete, this]
  · simp [UnregisterTestListener, SyncMap.Delete]

/-- C8 fails for "bufnet" and for a registered test scheme: the options
returned are insecure credentials and a context dialer, without an interceptor
chain and without default call options. -/
theorem GRPCOptions_bufnet_without_interceptors :
    GRPCOptions ⟨"bufnet", "", ""⟩ (State.init Nat ⟨true, true, true⟩)
      = .ok (("bufnet",
          [ DialOption.WithTransportCredentials .insecure,
            DialOption.WithContextDialer (fun now _ _ => now.ListenerForTest) ]),
          State.init Nat ⟨true, true, true⟩)
    ∧ ¬ attachesInterceptorsAndLimits (State.init Nat ⟨true, true, true⟩)
          [ DialOption.WithTransportCredentials .insecure,
            DialOption.WithContextDialer (fun now _ _ => now.ListenerForTest) ]
    ∧ GRPCOptions ⟨"test7", "", ""⟩
        (Op.apply (State.init Nat ⟨true, true, true⟩) (.register (.impl 3) [.val 7 (by decide)]))
      = .ok (("test7",
          [ DialOption.WithTransportCredentials .insecure,
            DialOption.WithContextDialer (fun _ _ _ => .impl 3) ]),
          Op.apply (State.init Nat ⟨true, true, true⟩) (.register (.impl 3) [.val 7 (by decide)])) := by
  refine ⟨rfl, ?_, rfl⟩
  rintro ⟨⟨o, ho, hu⟩, -, -⟩
  simp only [List.mem_cons, List.mem_singleton, List.not_mem_nil, or_false] at ho
  rcases ho with rfl | rfl <;> simp [DialOption.unaryChain] at hu

/-- C8, amended: for an "http" or "https" delegate `GRPCOptions` returns, and
its options hold a unary and a stream interceptor chain, metrics before
tracing, and default call options with the receive and send limits of the
package state, which start at 104857600 bytes each; whatever a delegate of
another scheme resolves to is insecure credentials and a context dialer
only. -/
theorem GRPCOptions_interceptors_and_limits {L : Type} (st : State L) (d : URL)
    (h : d.Scheme = "http" ∨ d.Scheme = "https") :
    (∃ addr opts st1, GRPCOptions d st = .ok ((addr, opts), st1)
      ∧ attachesInterceptorsAndLimits st opts)
    ∧ (∀ env, (State.init L env).RecvMsgSize = 104857600
        ∧ (State.init L env).SendMsgSize = 104857600)
    ∧ (∀ (d2 : URL) r, d2.Scheme ≠ "http" → d2.Scheme ≠ "https" → GRPCOptions d2 st = .ok r →
        ∃ f, r.1.2 = [DialOption.WithTransportCredentials .insecure, DialOption.WithContextDialer f]
          ∧ ¬ attachesInterceptorsAndLimits st r.1.2) := by
  refine ⟨?_, fun env => ⟨rfl, rfl⟩, ?_⟩
  · rcases h with h | h
    · refine ⟨_, _, _, GRPCOptions_http_eq st d h, ?_, ?_, ?_⟩
      · exact ⟨_, List.mem_cons_self _ _, rfl⟩
      · exact ⟨_, List.mem_cons_of_mem _ (List.mem_cons_self _ _), rfl⟩
      · exact ⟨DialOption.WithDefaultCallOptions _, by simp, rfl⟩
    · refine ⟨_, _, _, GRPCOptions_https_eq st d h, ?_, ?_, ?_⟩
      · exact ⟨_, List.mem_cons_self _ _, rfl⟩
      · exact ⟨_, List.mem_cons_of_mem _ (List.mem_cons_self _ _), rfl⟩
      · exact ⟨DialOption.WithDefaultCallOptions _, by simp, rfl⟩
  · intro d2 r h1 h2 hr
    have hno : ∀ f : ContextDialer L, ¬ attachesInterceptorsAndLimits st
        [DialOption.WithTransportCredentials .insecure, DialOption.WithContextDialer f] := by
      intro f
      rintro ⟨⟨o, ho, hu⟩, -, -⟩
      simp only [List.mem_cons, List.mem_singleton, List.not_mem_nil, or_false] at ho
      rcases ho with rfl | rfl <;> simp [DialOption.unaryChain] at hu
    by_cases h3 : d2.Scheme = "bufnet"
    · rw [GRPCOptions_bufnet_eq st d2 h3] at hr
      cases hr
      exact ⟨_, rfl, hno _⟩
    · rw [GRPCOptions_default_eq st d2 h1 h2 h3] at hr
      cases hm : st.listenersForTest d2.Scheme with
      | none => rw [hm] at hr; cases hr
      | some v =>
        cases v with
        | nil => rw [hm] at hr; cases hr
        | impl l =>
          rw [hm] at hr
          cases hr
          exact ⟨_, rfl, hno _⟩

/-- C8, amended, at "https://example.com:8443" in the initial state. -/
theorem GRPCOptions_interceptors_and_limits_witness :
    ∃ addr opts st1,
      GRPCOptions ⟨"https", "example.com", "8443"⟩ (State.init Nat ⟨true, true, true⟩)
        = .ok ((addr, opts), st1)
      ∧ attachesInterceptorsAndLimits (State.init Nat ⟨true, true, true⟩) opts :=
  (GRPCOptions_interceptors_and_limits (State.init Nat ⟨true, true, true⟩)
    ⟨"https", "example.com", "8443"⟩ (Or.inr rfl)).1

/-- C4 fails for a scheme registered with a nil listener: the scheme is a key
of the registry and `GRPCOptions` panics, on the type assertion of
`getTestListener`. -/
theorem GRPCOptions_registered_nil_panics :
    RegisterListenerForTest (DialableListener.nil : DialableListener Nat) [.val 7 (by decide)]
        (State.init Nat ⟨true, true, true⟩)
      = some (.ok ("test7",
          Op.apply (State.init Nat ⟨true, true, true⟩) (.register .nil [.val 7 (by decide)])))
    ∧ (Op.apply (State.init Nat ⟨true, true, true⟩)
        (.register .nil [.val 7 (by decide)])).listenersForTest "test7" = some .nil
    ∧ GRPCOptions ⟨"test7", "", ""⟩
        (Op.apply (State.init Nat ⟨true, true, true⟩) (.register .nil [.val 7 (by decide)]))
      = .error Panic.interfaceIsNil :=
  ⟨rfl, rfl, rfl⟩

/-- C4, amended: for a scheme other than "http", "https" and "bufnet",
`GRPCOptions` panics exactly when the scheme is not a key of the registry or
its entry is the nil listener; for a scheme that is not a key it panics with
"unreachable for valid delegates." and returns nothing; with a listener
registered it returns. -/
theorem GRPCOptions_unregistered_panics {L : Type} (st : State L) (d : URL)
    (h1 : d.Scheme ≠ "http") (h2 : d.Scheme ≠ "https") (h3 : d.Scheme ≠ "bufnet") :
    ((∃ p, GRPCOptions d st = .error p)
      ↔ (st.listenersForTest d.Scheme = none ∨ st.listenersForTest d.Scheme = some .nil))
    ∧ (st.listenersForTest d.Scheme = none →
        GRPCOptions d st = .error (Panic.value "unreachable for valid delegates.")
        ∧ ∀ r, GRPCOptions d st ≠ .ok r)
    ∧ (∀ l, st.listenersForTest d.Scheme = some (.impl l) → ∃ r, GRPCOptions d st = .ok r) := by
  rw [GRPCOptions_default_eq st d h1 h2 h3]
  cases hm : st.listenersForTest d.Scheme with
  | none =>
    refine ⟨⟨fun _ => Or.inl rfl, fun _ => ⟨_, rfl⟩⟩, fun _ => ⟨rfl, ?_⟩, ?_⟩
    · intro r hr
      cases hr
    · intro l hl
      cases hl
  | some v =>
    cases v with
    | nil =>
      refine ⟨⟨fun _ => Or.inr rfl, fun _ => ⟨_, rfl⟩⟩, ?_, ?_⟩
      · intro hc
        cases hc
      · intro l hl
        cases hl
    | impl l =>
      refine ⟨⟨?_, ?_⟩, ?_, fun _ _ => ⟨_, rfl⟩⟩
      · rintro ⟨p, hp⟩
        cases hp
      · rintro (hc | hc) <;> cases hc
      · intro hc
        cases hc

/-- C4, amended, at the empty scheme in the initial state: a panic. -/
theorem GRPCOptions_unregistered_panics_witness :
    GRPCOptions ⟨"", "example.com", ""⟩ (State.init Nat ⟨true, true, true⟩)
        = .error (Panic.value "unreachable for valid delegates.")
    ∧ ∀ r, GRPCOptions ⟨"", "example.com", ""⟩ (State.init Nat ⟨true, true, true⟩) ≠ .ok r :=
  (GRPCOptions_unregistered_panics (State.init Nat ⟨true, true, true⟩) ⟨"", "example.com", ""⟩
    (by decide) (by decide) (by decide)).2.1 rfl

/-- One pass of the registration loop, by the entry of the drawn scheme. -/
theorem registerAttempt_eq {L : Type} (l : DialableListener L) (n : Nat) (m : SyncMap L) :
    registerAttempt l n m =
      match m (testScheme n) with
      | some _ => (m, none)
      | none => (Function.update m (testScheme n) (some l), some (testScheme n)) := by
  simp only [registerAttempt, SyncMap.LoadOrStore]
  generalize testScheme n = sn
  cases m sn <;> rfl

/-- A scheduling step keeps the invariant of the interleaving. -/
theorem Registrations.step_inv {L : Type} (ls : List (DialableListener L)) (st0 : State L)
    (p : Registrations L) (e : Nat × RandInt) (hp : Registrations.Inv ls st0 p) :
    Registrations.Inv ls st0 (Registrations.step ls p e) := by
  obtain ⟨i, r⟩ := e
  unfold Registrations.step
  by_cases hpan : p.panicked = true
  · rw [if_pos hpan]; exact hp
  rw [if_neg hpan]
  cases hl : ls[i]? with
  | none => exact hp
  | some l =>
    cases hr : p.returned i with
    | some s0 => exact hp
    | none =>
      cases r with
      | err => exact hp
      | val n hn =>
        simp only [registerAttempt_eq]
        generalize testScheme n = sn
        cases hm : p.st.listenersForTest sn with
        | some v => exact hp
        | none =>
          obtain ⟨h1, h2, h3⟩ := hp
          refine ⟨?_, ?_, ?_⟩
          · intro a b s ha hb
            simp only [Function.update_apply] at ha hb
            by_cases hai : a = i <;> by_cases hbi : b = i
            · rw [hai, hbi]
            · rw [if_pos hai] at ha
              rw [if_neg hbi] at hb
              cases ha
              obtain ⟨-, l2, -, hreg⟩ := h2 b _ hb
              rw [hm] at hreg
              cases hreg
            · rw [if_neg hai] at ha
              rw [if_pos hbi] at hb
              cases hb
              obtain ⟨-, l2, -, hreg⟩ := h2 a _ ha
              rw [hm] at hreg
              cases hreg
            · rw [if_neg hai] at ha
              rw [if_neg hbi] at hb
              exact h1 a b s ha hb
          · intro a s ha
            simp only [Function.update_apply] at ha ⊢
            by_cases hai : a = i
            · rw [if_pos hai] at ha
              cases ha
              refine ⟨?_, l, by rw [hai]; exact hl, by simp⟩
              cases h0 : st0.listenersForTest (sn) with
              | none => rfl
              | some v =>
                have := h3 _ _ h0
                rw [hm] at this
                cases this
            · rw [if_neg hai] at ha
              obtain ⟨hfresh, l2, hl2, hreg⟩ := h2 a s ha
              have hne : s ≠ sn := by
                intro hc
                rw [hc, hm] at hreg
                cases hreg
              exact ⟨hfresh, l2, hl2, by rw [if_neg hne]; exact hreg⟩
          · intro k v hk
            have hreg := h3 k v hk
            have hne : k ≠ sn := by
              intro hc
              rw [hc, hm] at hreg
              cases hreg
            simp only [Function.update_apply, if_neg hne]
            exact hreg

/-- Every interleaving keeps the invariant. -/
theorem Registrations.run_inv {L : Type} (ls : List (DialableListener L)) (st0 : State L)
    (evs : List (Nat × RandInt)) : Registrations.Inv ls st0 (Registrations.run ls st0 evs) := by
  have hgen : ∀ (evs : List (Nat × RandInt)) (p : Registrations L), Registrations.Inv ls st0 p →
      Registrations.Inv ls st0 (evs.foldl (Registrations.step ls) p) := by
    intro evs
    induction evs with
    | nil => intro p hp; exact hp
    | cons e rest ih =>
      intro p hp
      exact ih _ (Registrations.step_inv ls st0 p e hp)
  apply hgen
  refine ⟨?_, ?_, ?_⟩
  · intro i j s hi
    cases hi
  · intro i s hi
    cases hi
  · intro k v hk
    exact hk

/-- Steps of a call that has returned change nothing. -/
theorem Registrations.foldl_returned {L : Type} (ls : List (DialableListener L))
    (draws : List RandInt) :
    ∀ (p : Registrations L) (s : String), p.returned 0 = some s →
      (draws.map (fun r => ((0 : Nat), r))).foldl (Registrations.step ls) p = p := by
  induction draws with
  | nil => intro p s _; rfl
  | cons r rest ih =>
    intro p s hp
    have hstep : Registrations.step ls p (0, r) = p := by
      unfold Registrations.step
      by_cases hpan : p.panicked = true
      · rw [if_pos hpan]
      · rw [if_neg hpan]
        cases hl : ls[0]? <;> simp only [hp]
    simp only [List.map_cons, List.foldl_cons, hstep]
    exact ih p s hp

/-- The function `RegisterListenerForTest` is the interleaving of one call:
what it returns on a list of draws is what call 0 returns when it alone takes
the steps, and the package states agree. -/
theorem RegisterListenerForTest_as_run {L : Type} (listener : DialableListener L)
    (draws : List RandInt) :
    ∀ (st st1 : State L) (s : String),
      RegisterListenerForTest listener draws st = some (.ok (s, st1)) →
      (Registrations.run [listener] st (draws.map (fun r => ((0 : Nat), r)))).returned 0 = some s
      ∧ (Registrations.run [listener] st (draws.map (fun r => ((0 : Nat), r)))).st = st1 := by
  induction draws with
  | nil => intro st st1 s h; cases h
  | cons r rest ih =>
    intro st st1 s h
    cases r with
    | err => cases h
    | val n hn =>
      simp only [RegisterListenerForTest, registerAttempt_eq] at h
      have hstep : Registrations.step [listener] ⟨st, fun _ => none, false⟩ (0, .val n hn)
          = match st.listenersForTest (testScheme n) with
            | some _ => ⟨st, fun _ => none, false⟩
            | none =>
              ⟨{ st with listenersForTest :=
                    Function.update st.listenersForTest (testScheme n) (some listener) },
                Function.update (fun _ => none) 0 (some (testScheme n)), false⟩ := by
        have h0 : ([listener] : List (DialableListener L))[0]? = some listener := rfl
        simp only [Registrations.step, registerAttempt_eq, h0, Bool.false_eq_true, if_false]
        generalize testScheme n = sn
        cases st.listenersForTest sn <;> rfl
      simp only [Registrations.run, List.map_cons, List.foldl_cons, hstep]
      generalize hsn : testScheme n = sn at h ⊢
      cases hm : st.listenersForTest sn with
      | some v =>
        rw [hm] at h
        exact ih st st1 s h
      | none =>
        rw [hm] at h
        simp only [Option.some.injEq, Except.ok.injEq, Prod.mk.injEq] at h
        obtain ⟨h1, h2⟩ := h
        subst h1
        subst h2
        simp only []
        rw [Registrations.foldl_returned [listener] rest _ sn (by simp)]
        exact ⟨by simp, rfl⟩

/-- The lookup of a key that holds a concrete listener reports it as found. -/
theorem getTestListener_impl {L : Type} (st : State L) (s : String) (x : L)
    (h : st.listenersForTest s = some (.impl x)) :
    getTestListener s st = .ok (DialableListener.impl x, true) := by
  simp [getTestListener, SyncMap.Load, h]

/-- C5 fails for a nil listener: its call returns a scheme, which is then a key
of the registry, and `getTestListener` on that scheme panics instead of
reporting the listener as found. -/
theorem RegisterListenerForTest_nil_not_found :
    (Registrations.run [(DialableListener.nil : DialableListener Nat)]
        (State.init Nat ⟨true, true, true⟩) [(0, .val 7 (by decide))]).returned 0 = some "test7"
    ∧ getTestListener "test7"
        (Registrations.run [(DialableListener.nil : DialableListener Nat)]
          (State.init Nat ⟨true, true, true⟩) [(0, .val 7 (by decide))]).st
      = .error Panic.interfaceIsNil :=
  ⟨rfl, rfl⟩

/-- C5, amended: at every point of every interleaving of registration calls,
from any package state, the schemes returned so far are pairwise distinct,
none was a key of the registry at the start, each is mapped to the listener
its call was given, and `getTestListener` reports that listener as found when
it is not nil; every key of the start still has its entry; and a call that is
still running returns the scheme it draws as soon as that scheme is not a
key. When all calls have returned, their schemes form a list without
repetition. -/
theorem RegisterListenerForTest_interleaved {L : Type} (ls : List (DialableListener L))
    (st0 : State L) (evs : List (Nat × RandInt)) :
    (∀ i j s, (Registrations.run ls st0 evs).returned i = some s →
        (Registrations.run ls st0 evs).returned j = some s → i = j)
    ∧ (∀ i s, (Registrations.run ls st0 evs).returned i = some s →
        st0.listenersForTest s = none)
    ∧ (∀ i s, (Registrations.run ls st0 evs).returned i = some s →
        ∃ l, ls[i]? = some l ∧ (Registrations.run ls st0 evs).st.listenersForTest s = some l)
    ∧ (∀ i s x, (Registrations.run ls st0 evs).returned i = some s →
        ls[i]? = some (.impl x) →
        getTestListener s (Registrations.run ls st0 evs).st = .ok (DialableListener.impl x, true))
    ∧ (∀ k v, st0.listenersForTest k = some v →
        (Registrations.run ls st0 evs).st.listenersForTest k = some v)
    ∧ (∀ i l n hn, ls[i]? = some l → (Registrations.run ls st0 evs).returned i = none →
        (Registrations.run ls st0 evs).panicked = false →
        (Registrations.run ls st0 evs).st.listenersForTest (testScheme n) = none →
        (Registrations.run ls st0 (evs ++ [(i, .val n hn)])).returned i = some (testScheme n))
    ∧ (∀ names : List String, names.length = ls.length →
        (∀ i (hi : i < names.length),
          (Registrations.run ls st0 evs).returned i = some (names.get ⟨i, hi⟩)) →
        names.Nodup) := by
  obtain ⟨h1, h2, h3⟩ := Registrations.run_inv ls st0 evs
  refine ⟨h1, fun i s hi => (h2 i s hi).1, fun i s hi => (h2 i s hi).2, ?_, h3, ?_, ?_⟩
  · intro i s x hi hx
    obtain ⟨-, l, hl, hreg⟩ := h2 i s hi
    rw [hx] at hl
    cases hl
    exact getTestListener_impl _ _ _ hreg
  · intro i l n hn hl hr hpan hfree
    have hrun : Registrations.run ls st0 (evs ++ [(i, .val n hn)])
        = Registrations.step ls (Registrations.run ls st0 evs) (i, .val n hn) := by
      simp [Registrations.run, List.foldl_append]
    rw [hrun]
    unfold Registrations.step
    have hpan2 : ¬ (Registrations.run ls st0 evs).panicked = true := by
      rw [hpan]
      exact Bool.false_ne_true
    rw [if_neg hpan2]
    simp only [hl, hr, registerAttempt_eq, hfree, Function.update_same]
  · intro names _ hnames
    rw [List.nodup_iff_injective_get]
    intro a b hab
    apply Fin.ext
    exact h1 a.1 b.1 _ (hnames a.1 a.2) (by rw [hab]; exact hnames b.1 b.2)

/-- The scheme of a value below `MaxInt64` is "test" followed by its decimal
digits. -/
theorem testScheme_eq (n : Nat) (hn : n < MaxInt64) : testScheme n = "test" ++ Nat.repr n := by
  have hb : bigInt64 n = (n : Int) := by
    unfold bigInt64
    unfold MaxInt64 at hn
    rw [Int.emod_eq_of_lt (by omega) (by omega)]
    omega
  have hneg : ¬ ((n : Int) < 0) := by omega
  simp only [testScheme, hb, fmtD, if_neg hneg, Int.toNat_ofNat]

/-- A returned registration drew a value below `MaxInt64` whose scheme was not a
key, and stored the listener under it. -/
theorem RegisterListenerForTest_ok {L : Type} (listener : DialableListener L)
    (draws : List RandInt) :
    ∀ (st st1 : State L) (s : String),
      RegisterListenerForTest listener draws st = some (.ok (s, st1)) →
      ∃ n, n < MaxInt64 ∧ s = testScheme n ∧ st.listenersForTest s = none
        ∧ st1 = { st with listenersForTest := Function.update st.listenersForTest s (some listener) } := by
  induction draws with
  | nil => intro st st1 s h; cases h
  | cons r rest ih =>
    intro st st1 s h
    cases r with
    | err => cases h
    | val n hn =>
      simp only [RegisterListenerForTest, registerAttempt_eq] at h
      generalize hsn : testScheme n = sn at h
      cases hm : st.listenersForTest sn with
      | some v =>
        rw [hm] at h
        exact ih st st1 s h
      | none =>
        rw [hm] at h
        simp only [Option.some.injEq, Except.ok.injEq, Prod.mk.injEq] at h
        obtain ⟨h1, h2⟩ := h
        subst h1
        exact ⟨n, hn, hsn.symm, hm, h2.symm⟩

/-- A call of `GRPCOptions` leaves the registry as it was. -/
theorem GRPCOptions_listenersForTest {L : Type} (st st1 : State L) (d : URL)
    (r : String × List (options.DialOption L)) (h : GRPCOptions d st = .ok (r, st1)) :
    st1.listenersForTest = st.listenersForTest := by
  by_cases h1 : d.Scheme = "http"
  · rw [GRPCOptions_http_eq st d h1] at h
    cases h
    rfl
  by_cases h2 : d.Scheme = "https"
  · rw [GRPCOptions_https_eq st d h2] at h
    cases h
    rfl
  by_cases h3 : d.Scheme = "bufnet"
  · rw [GRPCOptions_bufnet_eq st d h3] at h
    cases h
    rfl
  rw [GRPCOptions_default_eq st d h1 h2 h3] at h
  cases hm : st.listenersForTest d.Scheme with
  | none => rw [hm] at h; cases h
  | some v =>
    cases v with
    | nil => rw [hm] at h; cases h
    | impl l => rw [hm] at h; cases h; rfl

/-- An operation other than the unregistration of `s` keeps the entry of `s`. -/
theorem Op.apply_keeps {L : Type} (st : State L) (op : Op L) (s : String)
    (v : DialableListener L) (hop : op ≠ Op.unregister s)
    (h : st.listenersForTest s = some v) : (Op.apply st op).listenersForTest s = some v := by
  cases op with
  | register listener draws =>
    simp only [Op.apply]
    cases hr : RegisterListenerForTest listener draws st with
    | none => exact h
    | some res =>
      cases res with
      | error e => exact h
      | ok pr =>
        obtain ⟨s2, st1⟩ := pr
        obtain ⟨n, -, -, hfree, hst1⟩ := RegisterListenerForTest_ok listener draws st st1 s2 hr
        have hne : s ≠ s2 := by
          intro hc
          rw [hc, hfree] at h
          cases h
        simp only [hst1, Function.update_apply, if_neg hne]
        exact h
  | unregister k =>
    have hne : s ≠ k := by
      intro hc
      exact hop (by rw [hc])
    simp only [Op.apply, UnregisterTestListener, SyncMap.Delete, Function.update_apply, if_neg hne]
    exact h
  | resolve d =>
    simp only [Op.apply]
    cases hr : GRPCOptions d st with
    | error e => exact h
    | ok pr =>
      obtain ⟨r, st1⟩ := pr
      simp only [GRPCOptions_listenersForTest st st1 d r hr]
      exact h
  | setListenerForTest l => exact h
  | setMsgSizes a b => exact h

/-- Operations without an unregistration of `s` keep the entry of `s`. -/
theorem applyOps_keeps {L : Type} (ops : List (Op L)) (s : String) (v : DialableListener L) :
    ∀ st : State L, (∀ op ∈ ops, op ≠ Op.unregister s) → st.listenersForTest s = some v →
      (applyOps ops st).listenersForTest s = some v := by
  induction ops with
  | nil => intro st _ h; exact h
  | cons op rest ih =>
    intro st hops h
    exact ih (Op.apply st op) (fun o ho => hops o (List.mem_cons_of_mem _ ho))
      (Op.apply_keeps st op s v (hops op (List.mem_cons_self _ _)) h)

/-- C10 fails for a nil listener: the scheme returned for it is registered and
has not been unregistered, and `GRPCOptions` on a delegate of that scheme
panics. -/
theorem GRPCOptions_nil_listener_scheme_panics :
    RegisterListenerForTest (DialableListener.nil : DialableListener Nat)
        [.val 42 (by decide)] (State.init Nat ⟨false, false, false⟩)
      = some (.ok ("test42",
          applyOps [Op.register .nil [.val 42 (by decide)]] (State.init Nat ⟨false, false, false⟩)))
    ∧ GRPCOptions ⟨"test42", "example.com", "443"⟩
        (applyOps [Op.register .nil [.val 42 (by decide)]] (State.init Nat ⟨false, false, false⟩))
      = .error Panic.interfaceIsNil :=
  ⟨rfl, rfl⟩

/-- C10, amended: a scheme returned by `RegisterListenerForTest` is "test"
followed by the decimal digits of a number below 2^63 - 1, so it is none of
"http", "https" and "bufnet"; when the listener given is not nil, then after
any operations that do not unregister the scheme, `GRPCOptions` on a delegate
of that scheme returns, whatever the host and port, the scheme as the address
and, with insecure credentials, a context dialer of which every call is the
`Dial()` of that listener. -/
theorem RegisterListenerForTest_scheme_resolves {L : Type} (listener : DialableListener L)
    (draws : List RandInt) (st st1 : State L) (s : String)
    (h : RegisterListenerForTest listener draws st = some (.ok (s, st1))) :
    (∃ n : Nat, n < 2 ^ 63 - 1 ∧ s = "test" ++ Nat.repr n)
    ∧ s ≠ "http" ∧ s ≠ "https" ∧ s ≠ "bufnet"
    ∧ (∀ l : L, listener = .impl l →
        ∀ ops : List (Op L), (∀ op ∈ ops, op ≠ Op.unregister s) →
        ∀ d : URL, d.Scheme = s →
          ∃ f : ContextDialer L,
            GRPCOptions d (applyOps ops st1)
              = .ok ((s, [DialOption.WithTransportCredentials .insecure,
                          DialOption.WithContextDialer f]), applyOps ops st1)
            ∧ ∀ now ctx addr, f now ctx addr = DialableListener.impl l) := by
  obtain ⟨n, hn, hs, -, hst1⟩ := RegisterListenerForTest_ok listener draws st st1 s h
  have hs2 : s = "test" ++ Nat.repr n := by rw [hs, testScheme_eq n hn]
  have h1 : s ≠ "http" := by
    intro hc
    have := congrArg String.data (hs2.symm.trans hc)
    simp at this
  have h2 : s ≠ "https" := by
    intro hc
    have := congrArg String.data (hs2.symm.trans hc)
    simp at this
  have h3 : s ≠ "bufnet" := by
    intro hc
    have := congrArg String.data (hs2.symm.trans hc)
    simp at this
  refine ⟨⟨n, hn, hs2⟩, h1, h2, h3, ?_⟩
  intro l hl ops hops d hd
  have hreg1 : st1.listenersForTest s = some (.impl l) := by
    rw [hst1, ← hl]
    simp
  have hreg := applyOps_keeps ops s _ st1 hops hreg1
  refine ⟨fun _ _ _ => .impl l, ?_, fun _ _ _ => rfl⟩
  rw [GRPCOptions_default_eq _ d (by rw [hd]; exact h1) (by rw [hd]; exact h2)
    (by rw [hd]; exact h3), hd, hreg]

/-- C10, amended, for listener 3 and the draw 7, with another registration, an
unregistration of another scheme and a resolution in between. -/
theorem RegisterListenerForTest_scheme_resolves_witness :
    (∃ n : Nat, n < 2 ^ 63 - 1 ∧ "test7" = "test" ++ Nat.repr n)
    ∧ "test7" ≠ "http" ∧ "test7" ≠ "https" ∧ "test7" ≠ "bufnet"
    ∧ (∀ l : Nat, DialableListener.impl 3 = .impl l →
        ∀ ops : List (Op Nat), (∀ op ∈ ops, op ≠ Op.unregister "test7") →
        ∀ d : URL, d.Scheme = "test7" →
          ∃ f : ContextDialer Nat,
            GRPCOptions d (applyOps ops
                (Op.apply (State.init Nat ⟨true, true, true⟩) (.register (.impl 3) [.val 7 (by decide)])))
              = .ok (("test7", [DialOption.WithTransportCredentials .insecure,
                          DialOption.WithContextDialer f]),
                  applyOps ops
                    (Op.apply (State.init Nat ⟨true, true, true⟩)
                      (.register (.impl 3) [.val 7 (by decide)])))
            ∧ ∀ now ctx addr, f now ctx addr = DialableListener.impl l) :=
  RegisterListenerForTest_scheme_resolves (.impl 3) [.val 7 (by decide)]
    (State.init Nat ⟨true, true, true⟩) _ "test7" rfl

end GrpcKit
